import Mathlib

/-!
Shallow embedding of the `plug` crate (type-safe IPC over TCP with
length-prefixed JSON frames), covering `src/connection.rs`, `src/plug.rs`
and `src/strip.rs`.

Modelling conventions:
* A byte is a `Nat` (program invariants keep values below 256).
* A `TcpStream` is modelled by the bytes still pending to be read
  (`incoming`) and the bytes written so far (`written`); a successful
  write appends to `written` (the Rust code flushes before returning,
  so written bytes are on the wire once `write` succeeds).
* Fallible reads return `Option` (`none` = the `io::Error` path: short
  read, or a JSON value that fails to deserialize).
* `usize`/`u64` arithmetic: lengths are `Nat`; `write_u64` truncates via
  `% 2 ^ 64` exactly as the cast `bytes.len() as u64` would on overflow
  (on the 64-bit targets the crate runs on, `usize` fits `u64` exactly).
* The serde layer (`serde_json::to_vec` / `from_reader`) is external to
  the crate: typed operations are parameterized by a serializer
  `ser : α → List Nat` and deserializer `deser : List Nat → Option α`;
  a concrete model of serde_json's string codec (the one the crate
  itself uses for the handshake route) is given below.
-/

namespace PlugModel

/-- Big-endian bytes of a `u64`, as written by `write_u64`; `% 2 ^ 64`
models the `as u64` truncation of the `usize` length. -/
def u64be (n : Nat) : List Nat :=
  [n / 2 ^ 56 % 256, n / 2 ^ 48 % 256, n / 2 ^ 40 % 256, n / 2 ^ 32 % 256,
   n / 2 ^ 24 % 256, n / 2 ^ 16 % 256, n / 2 ^ 8 % 256, n % 256]

/-- Big-endian value of a byte list, as computed by `read_u64`. -/
def beVal (l : List Nat) : Nat :=
  l.foldl (fun acc b => acc * 256 + b) 0

/-- `stream.read_u64()`: consume 8 bytes, big-endian; fails on short read. -/
def readU64 (s : List Nat) : Option (Nat × List Nat) :=
  if 8 ≤ s.length then some (beVal (s.take 8), s.drop 8) else none

/-- The TCP stream: bytes pending to read, and bytes written so far. -/
structure TcpStream where
  incoming : List Nat
  written : List Nat
deriving DecidableEq, Repr

/-- The exact byte sequence `write` puts on the wire for a payload. -/
def writeFrameBytes (bytes : List Nat) : List Nat :=
  u64be bytes.length ++ bytes

/-- `connection::write`: length prefix, then payload, then flush. -/
def write (stream : TcpStream) (bytes : List Nat) : TcpStream :=
  { stream with written := stream.written ++ writeFrameBytes bytes }

/-- `buffer.resize(n, 0)` guarded by `buffer.len() < n` as in
`connection::read`: grow with zeros, never shrink. -/
def resized (buffer : List Nat) (n : Nat) : List Nat :=
  if buffer.length < n then buffer ++ List.replicate (n - buffer.length) 0 else buffer

/-- `connection::read`: read the `u64` size, grow the buffer if needed,
then `read_exact` that many bytes into its front. Returns the updated
stream, the updated buffer and the byte count `message_size`. -/
def read (stream : TcpStream) (buffer : List Nat) : Option (TcpStream × List Nat × Nat) :=
  match readU64 stream.incoming with
  | none => none
  | some (n, rest) =>
    if n ≤ rest.length then
      some ({ stream with incoming := rest.drop n },
            rest.take n ++ (resized buffer n).drop n, n)
    else none

theorem u64be_length (n : Nat) : (u64be n).length = 8 := by
  simp [u64be]

theorem beVal_u64be (n : Nat) : beVal (u64be n) = n % 2 ^ 64 := by
  simp only [u64be, beVal, List.foldl]
  omega

theorem readU64_frame (n : Nat) (rest : List Nat) :
    readU64 (u64be n ++ rest) = some (n % 2 ^ 64, rest) := by
  have h8 : (u64be n).length = 8 := u64be_length n
  simp [readU64, List.take_left', List.drop_left', h8, beVal_u64be]

/-- Reading from a stream whose pending bytes start with one well-formed
frame consumes exactly that frame and places its payload at the front of
the buffer. -/
theorem read_frame (payload rest buffer w : List Nat)
    (h : payload.length < 2 ^ 64) :
    read ⟨writeFrameBytes payload ++ rest, w⟩ buffer
      = some (⟨rest, w⟩,
              payload ++ (resized buffer payload.length).drop payload.length,
              payload.length) := by
  simp only [read, writeFrameBytes, List.append_assoc, readU64_frame,
    Nat.mod_eq_of_lt h]
  have hle : payload.length ≤ (payload ++ rest).length := by
    simp
  simp [hle, List.take_left', List.drop_left']

/-- `connection::write_json`: serialize (the serializer stands for
`serde_json::to_vec` at the value's type), then frame. -/
def write_json {α : Type} (ser : α → List Nat) (stream : TcpStream) (v : α) : TcpStream :=
  write stream (ser v)

/-- `connection::read_json`: read one frame, then deserialize its first
`message_size` bytes (the deserializer stands for
`serde_json::from_reader` at the target type; `none` is the error path,
propagated as an `io::Error`). -/
def read_json {α : Type} (deser : List Nat → Option α) (stream : TcpStream)
    (buffer : List Nat) : Option (TcpStream × List Nat × α) :=
  match read stream buffer with
  | none => none
  | some (stream1, buf1, n) =>
    match deser (buf1.take n) with
    | none => none
    | some v => some (stream1, buf1, v)

/-- `Connection<I, O>`: the owned stream plus the reusable read buffer.
The phantom type parameters `I`, `O` carry no runtime data and are
dropped here; typed operations take the codec explicitly instead. -/
structure Connection where
  stream : TcpStream
  buffer : List Nat
deriving DecidableEq, Repr

def Connection.new (stream : TcpStream) (buffer : List Nat) : Connection :=
  ⟨stream, buffer⟩

/-- `Connection::seize`: wrap a stream with a fresh empty buffer. -/
def Connection.seize (stream : TcpStream) : Connection :=
  Connection.new stream []

/-- `Connection::read_bytes`: one raw frame; returns the updated
connection and the slice `&buffer[..n]`. -/
def Connection.read_bytes (c : Connection) : Option (Connection × List Nat) :=
  match read c.stream c.buffer with
  | none => none
  | some (stream1, buf1, n) => some (Connection.new stream1 buf1, buf1.take n)

/-- `Connection::read`: one typed frame via `read_json`. -/
def Connection.read {α : Type} (c : Connection) (deser : List Nat → Option α) :
    Option (Connection × α) :=
  match read_json deser c.stream c.buffer with
  | none => none
  | some (stream1, buf1, v) => some (Connection.new stream1 buf1, v)

/-- `Connection::write`: one typed frame via `write_json`. -/
def Connection.write {α : Type} (c : Connection) (ser : α → List Nat) (v : α) : Connection :=
  { c with stream := write_json ser c.stream v }

/-- Lowercase hex digit byte, as emitted by serde_json's `\u00xx` escapes. -/
def hexDigit (d : Nat) : Nat :=
  if d < 10 then 48 + d else 87 + d

/-- serde_json's escaping of one byte inside a JSON string literal:
quote and backslash get two-byte escapes, the five short control
escapes are used when available, remaining control bytes become
`\u00xx`, and everything else is emitted verbatim (multi-byte UTF-8
continuation bytes are ≥ 0x80 and hence untouched, so byte-level
escaping agrees with serde_json's char-level escaping). -/
def escapeByte (b : Nat) : List Nat :=
  if b = 0x22 then [0x5C, 0x22]
  else if b = 0x5C then [0x5C, 0x5C]
  else if b = 0x08 then [0x5C, 0x62]
  else if b = 0x09 then [0x5C, 0x74]
  else if b = 0x0A then [0x5C, 0x6E]
  else if b = 0x0C then [0x5C, 0x66]
  else if b = 0x0D then [0x5C, 0x72]
  else if b < 0x20 then [0x5C, 0x75, 0x30, 0x30, hexDigit (b / 16), hexDigit (b % 16)]
  else [b]

/-- `serde_json::to_vec` on a string, over its UTF-8 bytes. -/
def jsonEncodeString (s : List Nat) : List Nat :=
  0x22 :: (s.flatMap escapeByte ++ [0x22])

/-- Value of one hex digit byte (serde_json accepts both cases). -/
def hexVal (c : Nat) : Option Nat :=
  if 0x30 ≤ c ∧ c ≤ 0x39 then some (c - 0x30)
  else if 0x41 ≤ c ∧ c ≤ 0x46 then some (c - 0x41 + 10)
  else if 0x61 ≤ c ∧ c ≤ 0x66 then some (c - 0x61 + 10)
  else none

/-- UTF-8 bytes of a code point (code points arriving here are valid). -/
def utf8Encode (cp : Nat) : List Nat :=
  if cp < 0x80 then [cp]
  else if cp < 0x800 then [0xC0 + cp / 64, 0x80 + cp % 64]
  else if cp < 0x10000 then [0xE0 + cp / 4096, 0x80 + cp / 64 % 64, 0x80 + cp % 64]
  else [0xF0 + cp / 262144, 0x80 + cp / 4096 % 64, 0x80 + cp / 64 % 64, 0x80 + cp % 64]

/-- Four hex digits, as in `\uXXXX`. -/
def parseHex4 : List Nat → Option (Nat × List Nat)
  | h1 :: h2 :: h3 :: h4 :: rest =>
    match hexVal h1, hexVal h2, hexVal h3, hexVal h4 with
    | some d1, some d2, some d3, some d4 =>
      some (((d1 * 16 + d2) * 16 + d3) * 16 + d4, rest)
    | _, _, _, _ => none
  | _ => none

/-- The bytes produced by one escape sequence (input starts after the
backslash): the eight short escapes, and `\uXXXX` with surrogate-pair
handling; lone surrogates are rejected, as serde_json rejects them. -/
def parseEscape : List Nat → Option (List Nat × List Nat)
  | [] => none
  | e :: rest =>
    if e = 0x22 then some ([0x22], rest)
    else if e = 0x5C then some ([0x5C], rest)
    else if e = 0x2F then some ([0x2F], rest)
    else if e = 0x62 then some ([0x08], rest)
    else if e = 0x66 then some ([0x0C], rest)
    else if e = 0x6E then some ([0x0A], rest)
    else if e = 0x72 then some ([0x0D], rest)
    else if e = 0x74 then some ([0x09], rest)
    else if e = 0x75 then
      match parseHex4 rest with
      | none => none
      | some (cp, rest1) =>
        if 0xD800 ≤ cp ∧ cp < 0xDC00 then
          match rest1 with
          | 0x5C :: 0x75 :: rest2 =>
            match parseHex4 rest2 with
            | none => none
            | some (lo, rest3) =>
              if 0xDC00 ≤ lo ∧ lo < 0xE000 then
                some (utf8Encode (0x10000 + (cp - 0xD800) * 0x400 + (lo - 0xDC00)), rest3)
              else none
          | _ => none
        else if 0xDC00 ≤ cp ∧ cp < 0xE000 then none
        else some (utf8Encode cp, rest1)
    else none

/-- Body of a JSON string literal after the opening quote, fuel-indexed
(each step consumes at least one input byte, so fuel = input length + 1
never runs out). Returns the decoded bytes and the input after the
closing quote. Raw control bytes are rejected, as in serde_json. -/
def parseBody : Nat → List Nat → Option (List Nat × List Nat)
  | 0, _ => none
  | _ + 1, [] => none
  | fuel + 1, b :: rest =>
    if b = 0x22 then some ([], rest)
    else if b = 0x5C then
      match parseEscape rest with
      | none => none
      | some (out, rest1) =>
        match parseBody fuel rest1 with
        | none => none
        | some (c, r) => some (out ++ c, r)
    else if b < 0x20 then none
    else
      match parseBody fuel rest with
      | none => none
      | some (c, r) => some (b :: c, r)

/-- JSON whitespace accepted by serde_json around a value. -/
def skipWs : List Nat → List Nat
  | [] => []
  | b :: rest =>
    if b = 0x20 ∨ b = 0x09 ∨ b = 0x0A ∨ b = 0x0D then skipWs rest else b :: rest

/-- `serde_json::from_reader::<String>` over the raw bytes: optional
leading whitespace, one string literal, then only trailing whitespace
(`from_reader` fails on trailing garbage). -/
def jsonDecodeString (s : List Nat) : Option (List Nat) :=
  match skipWs s with
  | [] => none
  | b :: rest =>
    if b = 0x22 then
      match parseBody (rest.length + 1) rest with
      | none => none
      | some (content, rest1) => if skipWs rest1 = [] then some content else none
    else none

/-- `Plug<I, O>`: the channel name (phantom types dropped). -/
structure Plug where
  name : List Nat
deriving DecidableEq, Repr

def Plug.new (name : List Nat) : Plug := ⟨name⟩

/-- `Plug::seize`: write the name as a typed JSON string frame, then
wrap the same stream (`Connection::seize`). -/
def Plug.seize (p : Plug) (stream : TcpStream) : Connection :=
  Connection.seize (write_json jsonEncodeString stream p.name)

/-- `Plug::connect`: open the transport (modelled by the fresh stream
handed in), then delegate to `seize`. -/
def Plug.connect (p : Plug) (freshStream : TcpStream) : Connection :=
  p.seize freshStream

/-- `HashMap::insert` on an association list: replace the value at an
existing key, otherwise add the entry. -/
def insertA {H : Type} : List (List Nat × H) → List Nat → H → List (List Nat × H)
  | [], k, v => [(k, v)]
  | (k1, v1) :: rest, k, v =>
    if k1 = k then (k, v) :: rest else (k1, v1) :: insertA rest k v

/-- `HashMap::get` on an association list. -/
def lookupA {H : Type} : List (List Nat × H) → List Nat → Option H
  | [], _ => none
  | (k1, v1) :: rest, k => if k1 = k then some v1 else lookupA rest k

/-- `Strip<E>`: the route table. A stored handler is the user's closure
`Fn(Connection<O, I>) -> Future<Output = Result<(), E>>`; the boxing
closure that builds `Connection::new(client, buffer)` before calling it
is inlined into `attach` below. -/
structure Strip (E : Type) where
  plugs : List (List Nat × (Connection → Except E Unit))

/-- `Strip::new`. -/
def Strip.new {E : Type} : Strip E := ⟨[]⟩

/-- `Strip::plug`: insert the handler under the plug's name. -/
def Strip.plug {E : Type} (s : Strip E) (p : Plug)
    (handler : Connection → Except E Unit) : Strip E :=
  ⟨insertA s.plugs p.name handler⟩

/-- `Strip::attach`: read the route as a typed JSON string frame into a
fresh buffer; on I/O or decode failure propagate the converted error
(`ioErr` stands for `E::from(io_error)`); if the route is registered,
run its handler on `Connection::new(client, buffer)`; otherwise return
`Ok(())` without invoking any handler. -/
def Strip.attach {E : Type} (s : Strip E) (ioErr : E) (client : TcpStream) :
    Except E Unit :=
  match read_json jsonDecodeString client [] with
  | none => Except.error ioErr
  | some (client1, buffer1, route) =>
    match lookupA s.plugs route with
    | some handler => handler (Connection.new client1 buffer1)
    | none => Except.ok ()

theorem lookupA_insertA {H : Type} (l : List (List Nat × H)) (k : List Nat) (v : H) :
    lookupA (insertA l k v) k = some v := by
  induction l with
  | nil => simp [insertA, lookupA]
  | cons hd tl ih =>
    obtain ⟨k1, v1⟩ := hd
    by_cases hk : k1 = k
    · simp [insertA, lookupA, hk]
    · simp [insertA, lookupA, hk, ih]

/-- Every byte either escapes to itself, or escapes to a backslash
sequence that `parseEscape` decodes back to exactly that byte. -/
theorem escape_cases (b : Nat) :
    (escapeByte b = [b] ∧ b ≠ 0x22 ∧ b ≠ 0x5C ∧ ¬ b < 0x20) ∨
    (∃ es, escapeByte b = 0x5C :: es ∧
      ∀ tail, parseEscape (es ++ tail) = some ([b], tail)) := by
  rcases Nat.lt_or_ge b 0x20 with hb | hb
  · refine Or.inr ?_
    interval_cases b <;> exact ⟨_, rfl, fun tail => rfl⟩
  · by_cases h22 : b = 0x22
    · subst h22
      exact Or.inr ⟨[0x22], rfl, fun tail => rfl⟩
    · by_cases h5c : b = 0x5C
      · subst h5c
        exact Or.inr ⟨[0x5C], rfl, fun tail => rfl⟩
      · refine Or.inl ⟨?_, h22, h5c, by omega⟩
        unfold escapeByte
        repeat rw [if_neg (by omega)]

theorem length_le_flatMap (s : List Nat) :
    s.length ≤ (s.flatMap escapeByte).length := by
  induction s with
  | nil => simp
  | cons b s1 ih =>
    rcases escape_cases b with ⟨hesc, _, _, _⟩ | ⟨es, hesc, _⟩ <;>
      rw [List.flatMap_cons, hesc] <;>
      simp only [List.length_append, List.length_cons, List.length_nil] <;>
      omega

/-- Parsing the escaped body followed by the closing quote recovers the
original bytes, for any sufficient fuel. -/
theorem parseBody_flatMap (s : List Nat) :
    ∀ fuel r, s.length < fuel →
      parseBody fuel (s.flatMap escapeByte ++ (0x22 :: r)) = some (s, r) := by
  induction s with
  | nil =>
    intro fuel r hlen
    match fuel with
    | f + 1 => rfl
  | cons b s1 ih =>
    intro fuel r hlen
    match fuel with
    | f + 1 =>
      have hf : s1.length < f := by
        simp only [List.length_cons] at hlen
        omega
      rcases escape_cases b with ⟨hesc, h22, h5c, hctrl⟩ | ⟨es, hesc, hparse⟩
      · rw [List.flatMap_cons, hesc]
        simp [parseBody, h22, h5c, hctrl, ih f r hf]
      · rw [List.flatMap_cons, hesc]
        simp [parseBody, hparse, ih f r hf]

theorem jsonDecodeString_quote (rest : List Nat) :
    jsonDecodeString (0x22 :: rest)
      = match parseBody (rest.length + 1) rest with
        | none => none
        | some (content, rest1) =>
          if skipWs rest1 = [] then some content else none := rfl

/-- The modelled serde_json string codec round-trips on every byte
sequence. -/
theorem jsonString_roundtrip (s : List Nat) :
    jsonDecodeString (jsonEncodeString s) = some s := by
  have hlen : s.length < (s.flatMap escapeByte ++ [0x22]).length + 1 := by
    have h := length_le_flatMap s
    simp only [List.length_append, List.length_cons, List.length_nil]
    omega
  have hbody := parseBody_flatMap s ((s.flatMap escapeByte ++ [0x22]).length + 1) []
    hlen
  have henc : jsonEncodeString s = 0x22 :: (s.flatMap escapeByte ++ [0x22]) := rfl
  rw [henc, jsonDecodeString_quote, hbody]
  rfl

theorem resized_length (buffer : List Nat) (n : Nat) :
    (resized buffer n).length = max buffer.length n := by
  unfold resized
  split <;> simp <;> omega

theorem resized_nil_drop (n : Nat) : (resized [] n).drop n = [] := by
  unfold resized
  split <;> simp

/-- Characterization of a successful `read`. -/
theorem read_cases (s : TcpStream) (buffer : List Nat)
    (x : TcpStream × List Nat × Nat) (h : read s buffer = some x) :
    ∃ n rest, readU64 s.incoming = some (n, rest) ∧ n ≤ rest.length ∧
      x = ({ s with incoming := rest.drop n },
           rest.take n ++ (resized buffer n).drop n, n) := by
  unfold read at h
  cases hu : readU64 s.incoming with
  | none => rw [hu] at h; cases h
  | some p =>
    obtain ⟨n, rest⟩ := p
    rw [hu] at h
    dsimp only at h
    by_cases hle : n ≤ rest.length
    · rw [if_pos hle] at h
      exact ⟨n, rest, rfl, hle, (Option.some_injective _ h).symm⟩
    · rw [if_neg hle] at h; cases h

/-- `Strip::attach` on a client whose pending bytes start with one
well-formed route frame: the route decodes, and dispatch is exactly the
table lookup; the handler receives the remaining stream and the buffer
still holding the route bytes. -/
theorem attach_frame {E : Type} (s : Strip E) (ioErr : E) (name rest w : List Nat)
    (hlen : (jsonEncodeString name).length < 2 ^ 64) :
    s.attach ioErr ⟨writeFrameBytes (jsonEncodeString name) ++ rest, w⟩
      = match lookupA s.plugs name with
        | some handler => handler (Connection.new ⟨rest, w⟩ (jsonEncodeString name))
        | none => Except.ok () := by
  unfold Strip.attach read_json
  rw [read_frame _ _ _ _ hlen, resized_nil_drop, List.append_nil]
  dsimp only
  rw [List.take_length, jsonString_roundtrip]

/-- Claim C1: round-trip of the typed layer — for every value `v` whose
serde codec round-trips (`deser (ser v) = some v`, the serde_json
guarantee for serializable application types), writing `v` with
`write_json` (serialize, then frame) and reading the resulting wire
bytes back with `read_json` (read frame, then deserialize) yields `v`,
leaving any following bytes untouched. -/
theorem typed_roundtrip {α : Type} (ser : α → List Nat) (deser : List Nat → Option α)
    (v : α) (s : TcpStream) (rest buffer w0 : List Nat)
    (hcodec : deser (ser v) = some v) (hlen : (ser v).length < 2 ^ 64) :
    (write_json ser s v).written = s.written ++ writeFrameBytes (ser v) ∧
    ∃ buf1,
      read_json deser ⟨(write_json ser ⟨[], []⟩ v).written ++ rest, w0⟩ buffer
        = some (⟨rest, w0⟩, buf1, v) := by
  refine ⟨rfl, ?_⟩
  have hw : (write_json ser ⟨[], []⟩ v).written = writeFrameBytes (ser v) := rfl
  rw [hw]
  unfold read_json
  rw [read_frame _ _ _ _ hlen]
  dsimp only
  rw [List.take_left' rfl, hcodec]
  exact ⟨_, rfl⟩

/-- Witness for C1 at the concrete JSON string codec and the string
"echo". -/
theorem typed_roundtrip_witness :
    (write_json jsonEncodeString ⟨[], []⟩ [101, 99, 104, 111]).written
        = ([] : List Nat) ++ writeFrameBytes (jsonEncodeString [101, 99, 104, 111]) ∧
    ∃ buf1,
      read_json jsonDecodeString
        ⟨(write_json jsonEncodeString ⟨[], []⟩ [101, 99, 104, 111]).written ++ [], []⟩ []
        = some (⟨[], []⟩, buf1, [101, 99, 104, 111]) :=
  typed_roundtrip jsonEncodeString jsonDecodeString [101, 99, 104, 111] ⟨[], []⟩ [] [] []
    (jsonString_roundtrip [101, 99, 104, 111]) (by decide)

/-- Claim C2, counterexample: the handshake frame a plug named "echo"
writes is `u64(6) ++ "\x22echo\x22"` — the JSON payload has 6 bytes
(two quotes plus four letters), not 7, so the claimed frame
`u64(7) ++ payload` is not what goes on the wire. -/
theorem handshake_echo_not_u64_seven :
    ((Plug.new [101, 99, 104, 111]).seize ⟨[], []⟩).stream.written
        = u64be 6 ++ [0x22, 101, 99, 104, 111, 0x22] ∧
    (jsonEncodeString [101, 99, 104, 111]).length = 6 ∧
    ¬ ((Plug.new [101, 99, 104, 111]).seize ⟨[], []⟩).stream.written
        = u64be 7 ++ [0x22, 101, 99, 104, 111, 0x22] := by decide

/-- Claim C2 as amended: when a client plug named "echo" performs its
handshake, the frame written on the wire is exactly the 8-byte
big-endian u64 value 6 followed by the 6 payload bytes of the JSON
encoding of "echo" (quotes plus the four letters). -/
theorem handshake_echo_frame (s : TcpStream) :
    ((Plug.new [101, 99, 104, 111]).seize s).stream.written
      = s.written ++ (u64be 6 ++ [0x22, 101, 99, 104, 111, 0x22]) := rfl

/-- Claim C3: frame boundary integrity — for every payload (including
the empty one), `write` emits the 8-byte big-endian length prefix
followed by the payload, and `read` on a stream carrying exactly those
bytes consumes them and returns exactly the payload, unaltered, leaving
any following bytes pending. -/
theorem frame_roundtrip (payload rest buffer w0 : List Nat) (s : TcpStream)
    (h : payload.length < 2 ^ 64) :
    (write s payload).written = s.written ++ (u64be payload.length ++ payload) ∧
    ∃ buf1,
      read ⟨(write ⟨[], []⟩ payload).written ++ rest, w0⟩ buffer
        = some (⟨rest, w0⟩, buf1, payload.length) ∧
      buf1.take payload.length = payload := by
  refine ⟨rfl, ?_⟩
  have hw : (write ⟨[], []⟩ payload).written = writeFrameBytes payload := rfl
  rw [hw]
  exact ⟨_, read_frame payload rest buffer w0 h, List.take_left' rfl⟩

/-- Witness for C3 with a 2-byte payload, trailing bytes and a
non-empty initial buffer. -/
theorem frame_roundtrip_witness :
    (write ⟨[], []⟩ [5, 6]).written = ([] : List Nat) ++ (u64be 2 ++ [5, 6]) ∧
    ∃ buf1,
      read ⟨(write ⟨[], []⟩ [5, 6]).written ++ [9], []⟩ [1, 2, 3]
        = some (⟨[9], []⟩, buf1, 2) ∧
      buf1.take 2 = [5, 6] :=
  frame_roundtrip [5, 6] [9] [1, 2, 3] [] ⟨[], []⟩ (by decide)

/-- Claim C4: routing correctness of `Strip::attach` — with handlers
`ha`, `hb` registered under "a" (byte 0x61) and "b" (0x62), a client
whose handshake frame decodes to "a" makes `attach` invoke exactly
`ha` (the result is `ha`'s result, uniformly in `hb`, so `hb` is never
invoked), and a client sending the unregistered name "c" (0x63) makes
`attach` return `Ok(())` without invoking any handler. -/
theorem attach_routing {E : Type} (ha hb : Connection → Except E Unit) (ioErr : E)
    (restA restC wA wC : List Nat) :
    ((Strip.new.plug (Plug.new [0x61]) ha).plug (Plug.new [0x62]) hb).attach ioErr
        ⟨writeFrameBytes (jsonEncodeString [0x61]) ++ restA, wA⟩
      = ha (Connection.new ⟨restA, wA⟩ (jsonEncodeString [0x61])) ∧
    ((Strip.new.plug (Plug.new [0x61]) ha).plug (Plug.new [0x62]) hb).attach ioErr
        ⟨writeFrameBytes (jsonEncodeString [0x63]) ++ restC, wC⟩
      = Except.ok () := by
  constructor
  · rw [attach_frame _ _ _ _ _ (by decide)]
    rfl
  · rw [attach_frame _ _ _ _ _ (by decide)]
    rfl

/-- Claim C5: the read buffer grows to at least the incoming frame
length and never shrinks; consequently, after reading a frame of
length `n1` and then one of length `n2 < n1`, the buffer still holds at
least `n1` bytes (and the `Vec`'s capacity is at least its length). -/
theorem read_buffer_growth :
    (∀ (s : TcpStream) (buffer : List Nat) s1 buf1 n,
      read s buffer = some (s1, buf1, n) →
        buffer.length ≤ buf1.length ∧ n ≤ buf1.length) ∧
    (∀ (s : TcpStream) (buffer : List Nat) s1 buf1 n1 s2 buf2 n2,
      read s buffer = some (s1, buf1, n1) →
      read s1 buf1 = some (s2, buf2, n2) →
      n2 < n1 → n1 ≤ buf2.length) := by
  have key : ∀ (s : TcpStream) (buffer : List Nat) s1 buf1 n,
      read s buffer = some (s1, buf1, n) →
        buffer.length ≤ buf1.length ∧ n ≤ buf1.length := by
    intro s buffer s1 buf1 n h
    obtain ⟨m, rest, _, hle, hx⟩ := read_cases s buffer _ h
    obtain ⟨_, h2⟩ := Prod.mk.injEq .. ▸ congrArg id hx
    have hb : buf1 = rest.take m ++ (resized buffer m).drop m := by
      have := congrArg (fun y => y.2.1) hx
      simpa using this
    have hn : n = m := by
      have := congrArg (fun y => y.2.2) hx
      simpa using this
    subst hn
    rw [hb]
    have h1 : (rest.take n).length = n := by
      simp [List.length_take]
      omega
    have h2 : ((resized buffer n).drop n).length = (resized buffer n).length - n := by
      simp
    rw [List.length_append, h1, h2, resized_length]
    omega
  refine ⟨key, ?_⟩
  intro s buffer s1 buf1 n1 s2 buf2 n2 h1 h2 _
  have k1 := key s buffer s1 buf1 n1 h1
  have k2 := key s1 buf1 s2 buf2 n2 h2
  omega

/-- Witness for C5: a 2-byte frame then a 1-byte frame; the buffer
keeps length 2. -/
theorem read_buffer_growth_witness :
    ([1] : List Nat).length ≤ ([5, 6] : List Nat).length ∧
    2 ≤ ([5, 6] : List Nat).length ∧
    2 ≤ ([7, 6] : List Nat).length :=
  have h1 : read ⟨writeFrameBytes [5, 6] ++ writeFrameBytes [7], []⟩ [1]
      = some (⟨writeFrameBytes [7], []⟩, [5, 6], 2) := by decide
  have h2 : read ⟨writeFrameBytes [7], []⟩ [5, 6]
      = some (⟨[], []⟩, [7, 6], 1) := by decide
  ⟨(read_buffer_growth.1 _ _ _ _ _ h1).1,
   (read_buffer_growth.1 _ _ _ _ _ h1).2,
   read_buffer_growth.2 _ _ _ _ _ _ _ _ h1 h2 (by decide)⟩

/-- Claim C6: overwrite semantics — registering a second handler under
an already-used name replaces the first: the lookup yields the new
handler, and `attach` on a client routing to that name invokes exactly
the new handler (the result is `h2`'s result, uniformly in `h1`). -/
theorem plug_overwrite {E : Type} (s : Strip E) (p : Plug)
    (h1 h2 : Connection → Except E Unit) (ioErr : E) (rest w : List Nat)
    (hlen : (jsonEncodeString p.name).length < 2 ^ 64) :
    lookupA ((s.plug p h1).plug p h2).plugs p.name = some h2 ∧
    ((s.plug p h1).plug p h2).attach ioErr
        ⟨writeFrameBytes (jsonEncodeString p.name) ++ rest, w⟩
      = h2 (Connection.new ⟨rest, w⟩ (jsonEncodeString p.name)) := by
  have hl : lookupA ((s.plug p h1).plug p h2).plugs p.name = some h2 := by
    simp [Strip.plug, lookupA_insertA]
  refine ⟨hl, ?_⟩
  rw [attach_frame _ _ _ _ _ hlen, hl]

/-- Witness for C6: overwriting under the name "a" on an initially
empty strip; the second handler (which errors with 7) is the one that
runs. -/
theorem plug_overwrite_witness :
    lookupA (((Strip.new : Strip Nat).plug (Plug.new [0x61]) (fun _ => Except.ok ())).plug
        (Plug.new [0x61]) (fun _ => Except.error 7)).plugs [0x61]
      = some (fun _ => Except.error 7) ∧
    (((Strip.new : Strip Nat).plug (Plug.new [0x61]) (fun _ => Except.ok ())).plug
        (Plug.new [0x61]) (fun _ => Except.error 7)).attach 9
        ⟨writeFrameBytes (jsonEncodeString [0x61]) ++ [], []⟩
      = (fun _ => Except.error 7) (Connection.new ⟨[], []⟩ (jsonEncodeString [0x61])) :=
  plug_overwrite (Strip.new : Strip Nat) (Plug.new [0x61]) (fun _ => Except.ok ())
    (fun _ => Except.error 7) 9 [] [] (by decide)

/-- Claim C7: the client handshake is fire-and-forget — `Plug::seize`
appends exactly one frame (the typed JSON string encoding of the
channel name) to the stream's written bytes, consumes nothing from the
stream (no response is read), and returns a connection wrapping that
same stream with an empty buffer; `Plug::connect` opens the transport
and delegates to `seize`. -/
theorem plug_seize_fire_and_forget (p : Plug) (s : TcpStream) :
    (p.seize s).stream.written = s.written ++ writeFrameBytes (jsonEncodeString p.name) ∧
    (p.seize s).stream.incoming = s.incoming ∧
    (p.seize s).buffer = [] ∧
    p.connect s = p.seize s :=
  ⟨rfl, rfl, rfl, rfl⟩

/-- Claim C9: initial buffer contents never leak into read results —
for one and the same stream, `read_bytes` (and `read_json`, hence
`read()`) produces the same returned bytes/value and the same
resulting stream whatever the connection's initial buffer contents,
e.g. an `attach`-constructed buffer still holding the handshake name
versus an empty one. -/
theorem read_independent_of_buffer (s : TcpStream) (b1 b2 : List Nat) :
    ((Connection.new s b1).read_bytes).map (fun r => (r.1.stream, r.2))
      = ((Connection.new s b2).read_bytes).map (fun r => (r.1.stream, r.2)) ∧
    ∀ (α : Type) (deser : List Nat → Option α),
      (read_json deser s b1).map (fun r => (r.1, r.2.2))
        = (read_json deser s b2).map (fun r => (r.1, r.2.2)) := by
  cases hu : readU64 s.incoming with
  | none =>
    constructor
    · simp [Connection.read_bytes, Connection.new, read, hu]
    · intro α deser
      simp [read_json, read, hu]
  | some p =>
    obtain ⟨n, rest⟩ := p
    by_cases hle : n ≤ rest.length
    · have hkey : ∀ b : List Nat, (rest.take n ++ (resized b n).drop n).take n
          = rest.take n := by
        intro b
        apply List.take_left'
        simp [List.length_take]
        omega
      constructor
      · simp [Connection.read_bytes, Connection.new, read, hu, hle, hkey]
      · intro α deser
        simp only [read_json, read, hu, hle, if_true, if_pos]
        rw [hkey b1, hkey b2]
        cases deser (rest.take n) <;> simp
    · constructor
      · simp [Connection.read_bytes, Connection.new, read, hu, hle]
      · intro α deser
        simp [read_json, read, hu, hle]

/-- Claim C10: `Connection::seize` performs no I/O — it wraps the given
stream unchanged (nothing written, nothing consumed) in a connection
whose internal buffer is empty, unlike `Plug::seize` which writes the
handshake frame. -/
theorem connection_seize_no_io (s : TcpStream) :
    (Connection.seize s).stream = s ∧
    (Connection.seize s).stream.written = s.written ∧
    (Connection.seize s).buffer = [] :=
  ⟨rfl, rfl, rfl⟩

end PlugModel
